import Mathlib

/-!
Shallow embedding of the package-inventory parsers of percona/telemetry-agent
(files metrics/package_debian.go and the RHEL counterpart), together with the
pieces of its dependencies that those parsers call:

* Go `strings` / `bufio.Scanner` primitives, modelled on `List Char`
  (the agent only ever feeds ASCII command output to them);
* the pinned library github.com/knqyf263/go-deb-version (`NewVersion`,
  `Version()`, `Revision()`);
* the path-extraction fragment of Go `net/url.Parse`.

All recursion is structural so every definition evaluates by `decide` / `rfl`.
-/

namespace TelemetryAgent

/-- The single-quote character, written via its code point. -/
def squote : Char := Char.ofNat 39

/-- Model of Go `strings.Trim`: drop characters of `cutset` from both ends. -/
def goTrimCharsL (cutset : List Char) (l : List Char) : List Char :=
  ((l.dropWhile (cutset.contains ·)).reverse.dropWhile (cutset.contains ·)).reverse

/-- String wrapper for `goTrimCharsL`. -/
def goTrimChars (cutset : List Char) (s : String) : String :=
  ⟨goTrimCharsL cutset s.toList⟩

/-- ASCII whitespace trimmed by Go `strings.TrimSpace`. -/
def spaceChars : List Char := [' ', '\t', '\n', Char.ofNat 11, Char.ofNat 12, '\r']

/-- Model of Go `strings.TrimSpace` (ASCII inputs). -/
def goTrimSpace (s : String) : String := goTrimChars spaceChars s

/-- Model of Go `strings.Split` with a one-character separator. -/
def splitOnCharL (c : Char) : List Char → List (List Char)
  | [] => [[]]
  | x :: rest =>
    if x = c then [] :: splitOnCharL c rest
    else
      match splitOnCharL c rest with
      | [] => [[x]]
      | h :: t => (x :: h) :: t

/-- String wrapper for `splitOnCharL`. -/
def goSplitOnChar (c : Char) (s : String) : List String :=
  (splitOnCharL c s.toList).map fun l => ⟨l⟩

/-- Model of Go `strings.Contains` on character lists. -/
def hasInfixL (pat : List Char) : List Char → Bool
  | [] => pat.isEmpty
  | c :: rest => pat.isPrefixOf (c :: rest) || hasInfixL pat rest

/-- Model of Go `strings.Contains`. -/
def goContains (s pat : String) : Bool := hasInfixL pat.toList s.toList

/-- Model of Go `strings.HasPrefix`. -/
def goStartsWith (s pat : String) : Bool := pat.toList.isPrefixOf s.toList

/-- Model of the Go idiom
`if pos := strings.LastIndex(s, c); pos != -1 { s = s[0:pos] }`:
cut the string at its last occurrence of `c` (identity when `c` is absent). -/
def cutAfterLastL (c : Char) (l : List Char) : List Char :=
  if l.contains c then ((l.reverse.dropWhile (· != c)).drop 1).reverse else l

/-- String wrapper for `cutAfterLastL`. -/
def cutAfterLast (c : Char) (s : String) : String := ⟨cutAfterLastL c s.toList⟩

/-- The suffix after the last occurrence of `c` (Go `s[pos+1:]` with
`pos = strings.LastIndex(s, c)`; the whole string when `c` is absent). -/
def afterLastL (c : Char) (l : List Char) : List Char :=
  (l.reverse.takeWhile (· != c)).reverse

/-- String wrapper for `afterLastL`. -/
def afterLast (c : Char) (s : String) : String := ⟨afterLastL c s.toList⟩

/-- Prefix strictly before the first occurrence of `c` (whole list if absent). -/
def beforeFirstL (c : Char) (l : List Char) : List Char := l.takeWhile (· != c)

/-- Suffix strictly after the first occurrence of `c` (empty if absent). -/
def afterFirstL (c : Char) (l : List Char) : List Char := (l.dropWhile (· != c)).drop 1

/-- Model of the Go idiom `if pos := strings.Index(s, pat); pos != -1 { s = s[0:pos] }`:
cut at the first occurrence of the pattern `pat` (identity when absent). -/
def cutAtFirstInfixL (pat : List Char) : List Char → List Char
  | [] => []
  | x :: rest => if pat.isPrefixOf (x :: rest) then [] else x :: cutAtFirstInfixL pat rest

/-- Decimal value of a digit list (used by the `strconv.Atoi` model). -/
def digitsVal (l : List Char) : Nat := l.foldl (fun acc c => acc * 10 + (c.toNat - 48)) 0

/-- Model of Go `strconv.Atoi`: optional sign, then one or more digits. -/
def goAtoi (s : String) : Option Int :=
  let signSplit : Bool × List Char :=
    match s.toList with
    | '+' :: rest => (false, rest)
    | '-' :: rest => (true, rest)
    | l => (false, l)
  let neg := signSplit.1
  let ds := signSplit.2
  if ds.isEmpty || !ds.all (·.isDigit) then none
  else some (if neg then -(digitsVal ds : Int) else (digitsVal ds : Int))

/-- Replace every dot with a dash (Go `strings.ReplaceAll(s, ".", "-")`). -/
def dotsToDashes (s : String) : String :=
  ⟨s.toList.map fun c => if c = '.' then '-' else c⟩

/-- Model of `bufio.Scanner` with `ScanLines`: split on newline, drop one
trailing carriage return per line, and do not emit a final empty token for a
trailing newline. -/
def goLines (s : String) : List String :=
  if s.toList.isEmpty then []
  else
    let parts := splitOnCharL '\n' s.toList
    let parts := if parts.getLast? = some [] then parts.dropLast else parts
    parts.map fun l => (⟨if l.getLast? = some '\r' then l.dropLast else l⟩ : String)

/-! ## The go-deb-version dependency

The agent normalizes Debian version strings through the pinned library
github.com/knqyf263/go-deb-version. Its `NewVersion` trims space, takes an
optional `epoch:` (via `strconv.Atoi`, rejecting negatives), splits the rest
at the last dash into upstream version and revision, and validates: the
upstream version must be non-empty, start with an ASCII digit and use only
alphanumerics and one of `. - + ~ : _`; the revision only alphanumerics and
one of `+ . ~ _`. Go `unicode.IsDigit`/`IsLetter` are modelled by the ASCII
`Char.isDigit`/`Char.isAlpha` (all inputs in this development are ASCII). -/

/-- A parsed Debian version: `[epoch:]upstream_version[-debian_revision]`. -/
structure DebVersion where
  epoch : Int
  upstreamVersion : String
  debianRevision : String
deriving DecidableEq, Repr

/-- Characters allowed in the upstream version by go-deb-version. -/
def upstreamAllowed (c : Char) : Bool :=
  c.isDigit || c.isAlpha || ['.', '-', '+', '~', ':', '_'].contains c

/-- Characters allowed in the Debian revision by go-deb-version. -/
def revisionAllowed (c : Char) : Bool :=
  c.isDigit || c.isAlpha || ['+', '.', '~', '_'].contains c

/-- Model of go-deb-version `NewVersion`; `none` models the error return. -/
def debNewVersion (raw : String) : Option DebVersion :=
  let ver := (goTrimSpace raw).toList
  let epochAndRest : Option Int × List Char :=
    if ver.contains ':' then
      (goAtoi ⟨beforeFirstL ':' ver⟩, afterFirstL ':' ver)
    else (some 0, ver)
  match epochAndRest.1 with
  | none => none
  | some e =>
    if e < 0 then none
    else
      let rest := epochAndRest.2
      let up : List Char := if rest.contains '-' then cutAfterLastL '-' rest else rest
      let rev : List Char := if rest.contains '-' then afterLastL '-' rest else []
      if up.isEmpty then none
      else if !(up.headD ' ').isDigit then none
      else if !up.all upstreamAllowed then none
      else if !rev.all revisionAllowed then none
      else some { epoch := e, upstreamVersion := ⟨up⟩, debianRevision := ⟨rev⟩ }

/-! ## Data model

`Package` and `PackageRepository` mirror the Go structs of the metrics
package (the spec's §3 data model): a repository is a `{name, component}`
pair of strings, a package carries name, canonical version and repository
(the Debian package parser leaves the repository at its zero value). -/

/-- A package repository: name and component, both possibly empty. -/
structure PackageRepository where
  Name : String := ""
  Component : String := ""
deriving DecidableEq, Repr

/-- An installed package record produced by the parsers. -/
structure Package where
  Name : String
  Version : String
  Repository : PackageRepository := {}
deriving DecidableEq, Repr

/-- The error values the parsers can return. `invocation msg` stands for an
arbitrary command-invocation error whose `Error()` text is `msg` (Go passes
these through unchanged); the other constructors are the distinguished
sentinel errors of the metrics package. -/
inductive PkgError where
  | invocation (msg : String)
  | packageNotFound
  | packageRepositoryNotFound
  | unexpectedRepoLine
  | unexpectedConfiguredRepoLine
  | urlParse (msg : String)
deriving DecidableEq, Repr

/-! ## Version normalizers -/

/-- Translation of `parseRhelPackageVersion` (RHEL backend): strip the
distribution tag after the last dot from the release (or from the version
when the release is empty); for a first-party package with a non-empty
stripped release, rewrite its dots to dashes and join with a dash. -/
def parseRhelPackageVersion (packageVersion packageRelease : String)
    (isPerconaPackage : Bool) : String :=
  let stripped : String × String :=
    if packageRelease.length ≠ 0 then (packageVersion, cutAfterLast '.' packageRelease)
    else (cutAfterLast '.' packageVersion, packageRelease)
  let pv := stripped.1
  let pr := stripped.2
  if isPerconaPackage ∧ pr.length ≠ 0 then pv ++ "-" ++ dotsToDashes pr
  else pv

/-- The first-party branch of `parseDebianPackageVersion`, applied after the
distribution codename has been cut at the last dot: parse with go-deb-version,
fall back to the (stripped) raw string on error, otherwise join the upstream
version with the dots-to-dashes rewritten revision when one is present. -/
def perconaDebianVersionCore (pkgVersion : String) : String :=
  match debNewVersion pkgVersion with
  | none => pkgVersion
  | some v =>
    if v.debianRevision.length ≠ 0 then
      v.upstreamVersion ++ "-" ++ dotsToDashes v.debianRevision
    else v.upstreamVersion

/-- The third-party branch of `parseDebianPackageVersion`: parse with
go-deb-version, fall back to the raw string on error, otherwise return the
upstream version cut at the first occurrence of the `+dfsg` marker. -/
def thirdPartyDebianVersionCore (pkgVersion : String) : String :=
  match debNewVersion pkgVersion with
  | none => pkgVersion
  | some v => ⟨cutAtFirstInfixL "+dfsg".toList v.upstreamVersion.toList⟩

/-- Translation of `parseDebianPackageVersion` (metrics/package_debian.go):
first-party versions are first cut at their last dot (the distribution
codename), then both branches go through go-deb-version as in the source. -/
def parseDebianPackageVersion (pkgVersion : String) (isPerconaPackage : Bool) : String :=
  if isPerconaPackage then perconaDebianVersionCore (cutAfterLast '.' pkgVersion)
  else thirdPartyDebianVersionCore pkgVersion

/-! ## RHEL backend parsers -/

/-- Translation of `parseRhelPackageRegistry`: empty input gives the zero
repository; third-party input becomes the name verbatim; first-party input is
cut at its last dash (the architecture suffix) and the remainder split at its
last dash into name and component (both left empty when no dash remains). -/
def parseRhelPackageRegistry (packageRepository : String) (isPerconaPackage : Bool) :
    PackageRepository :=
  if packageRepository.length = 0 then {}
  else if !isPerconaPackage then { Name := packageRepository }
  else if (cutAfterLast '-' packageRepository).toList.contains '-' then
    { Name := cutAfterLast '-' (cutAfterLast '-' packageRepository),
      Component := afterLast '-' (cutAfterLast '-' packageRepository) }
  else {}

/-- Cutset trimmed from RHEL output lines (Go `strings.Trim(line, " '\t")`). -/
def rhelTrimSet : List Char := [' ', squote, '\t']

/-- One iteration of the `parseRhelPackageOutput` scanner loop: trim, skip
empty lines, require exactly four pipe-separated fields, and build the
`Package` record (`continue` in Go is `none` here). -/
def parseRhelLine (isPerconaPackage : Bool) (rawLine : String) : Option Package :=
  let line := goTrimChars rhelTrimSet rawLine
  if line.length = 0 then none
  else
    match goSplitOnChar '|' line with
    | [pkgName, pkgVersion, pkgRelease, pkgRepository] =>
      some { Name := pkgName,
             Version := parseRhelPackageVersion pkgVersion pkgRelease isPerconaPackage,
             Repository := parseRhelPackageRegistry pkgRepository isPerconaPackage }
    | _ => none

/-- Translation of `parseRhelPackageOutput`: a non-nil invocation error is
returned as-is; otherwise the lines are scanned and, when no record survives,
the distinguished `errPackageNotFound` is returned. -/
def parseRhelPackageOutput (packageOutput : String) (rpmErr : Option String)
    (isPerconaPackage : Bool) : Except PkgError (List Package) :=
  match rpmErr with
  | some msg => .error (.invocation msg)
  | none =>
    let toReturn := (goLines packageOutput).filterMap (parseRhelLine isPerconaPackage)
    if toReturn.isEmpty then .error .packageNotFound
    else .ok toReturn

/-! ## Debian backend package parser -/

/-- Translation of `parseDebianPackageName`: trim space and drop any
`:architecture` qualifier. -/
def parseDebianPackageName (pkgName : String) : String :=
  (goSplitOnChar ':' (goTrimSpace pkgName)).headD ""

/-- Cutset trimmed from Debian package lines (Go `strings.Trim(line, " '")`). -/
def debTrimSet : List Char := [' ', squote]

/-- One iteration of the `parseDebianPackageOutput` scanner loop: trim, skip
empty lines, require exactly three pipe-separated fields, accept only the
`ii` and `iHR` statuses, and drop records whose derived name or version is
empty. -/
def parseDebianLine (isPerconaPackage : Bool) (rawLine : String) : Option Package :=
  if (goTrimChars debTrimSet rawLine).length = 0 then none
  else
    match goSplitOnChar '|' (goTrimChars debTrimSet rawLine) with
    | [st, nm, vr] =>
      if goTrimSpace st ≠ "ii" ∧ goTrimSpace st ≠ "iHR" then none
      else if (parseDebianPackageName nm).length = 0 then none
      else if (parseDebianPackageVersion vr isPerconaPackage).length = 0 then none
      else some { Name := parseDebianPackageName nm,
                  Version := parseDebianPackageVersion vr isPerconaPackage,
                  Repository := {} }
    | _ => none

/-- Translation of `parseDebianPackageOutput`: an invocation error whose text
contains `no packages found matching` becomes `errPackageNotFound`, any other
invocation error is propagated as-is; otherwise lines are scanned and zero
survivors again signal `errPackageNotFound`. -/
def parseDebianPackageOutput (dpkgOutput : String) (dpkgErr : Option String)
    (isPerconaPackage : Bool) : Except PkgError (List Package) :=
  match dpkgErr with
  | some msg =>
    if goContains msg "no packages found matching" then .error .packageNotFound
    else .error (.invocation msg)
  | none =>
    let toReturn := (goLines dpkgOutput).filterMap (parseDebianLine isPerconaPackage)
    if toReturn.isEmpty then .error .packageNotFound
    else .ok toReturn

/-! ## The net/url dependency

`parseDebianPackageRepositoryLine` extracts `repoURL.Path` from Go
`url.Parse`. The model below reproduces `Parse` up to the point where the
path is known: fragment split, the control-character check, `getScheme`,
query split, the opaque (rootless-path) case, the colon-in-first-segment
check, authority stripping and percent-unescaping of the path. Validation
inside the authority (userinfo, host escapes, port syntax) is not modelled:
on authorities free of special characters Go performs no further checks, and
every authority considered in this development is of that plain form. -/

/-- Go `stringContainsCTLByte` test for a single character. -/
def isCtlChar (c : Char) : Bool := c.toNat < 32 || c.toNat == 127

/-- Accumulator loop of Go net/url `getScheme`: returns the scheme (possibly
empty) and the remainder, or the `missing protocol scheme` error. -/
def goGetSchemeAux (acc : List Char) (orig : List Char) :
    List Char → Except String (List Char × List Char)
  | [] => .ok ([], orig)
  | c :: rest =>
    if c.isAlpha then goGetSchemeAux (acc ++ [c]) orig rest
    else if c.isDigit || c == '+' || c == '-' || c == '.' then
      if acc.isEmpty then .ok ([], orig) else goGetSchemeAux (acc ++ [c]) orig rest
    else if c == ':' then
      if acc.isEmpty then .error "missing protocol scheme" else .ok (acc, rest)
    else .ok ([], orig)

/-- Model of Go net/url `getScheme`. -/
def goGetScheme (l : List Char) : Except String (List Char × List Char) :=
  goGetSchemeAux [] l l

/-- Value of an ASCII hex digit, if any. -/
def hexVal (c : Char) : Option Nat :=
  if c.isDigit then some (c.toNat - 48)
  else if 'a' ≤ c ∧ c ≤ 'f' then some (c.toNat - 87)
  else if 'A' ≤ c ∧ c ≤ 'F' then some (c.toNat - 55)
  else none

/-- Percent-unescaping of a URL path (Go `setPath` via `unescape`);
`none` models the `invalid URL escape` error. -/
def unescapePath : List Char → Option (List Char)
  | [] => some []
  | '%' :: a :: b :: rest =>
    match hexVal a, hexVal b with
    | some x, some y => (unescapePath rest).map (Char.ofNat (16 * x + y) :: ·)
    | _, _ => none
  | '%' :: _ => none
  | c :: rest => (unescapePath rest).map (c :: ·)

/-- Model of Go `url.Parse(rawURL)` restricted to the `Path` field of the
result (`""` for opaque URLs), with errors as `.error`. -/
def goURLParsePath (rawURL : String) : Except String String :=
  let l := beforeFirstL (Char.ofNat 35) rawURL.toList
  if l.any isCtlChar then .error "net/url: invalid control character in URL"
  else if l = ['*'] then .ok "*"
  else
    match goGetScheme l with
    | .error e => .error e
    | .ok (scheme, afterScheme) =>
      let rest := beforeFirstL (Char.ofNat 63) afterScheme
      if !scheme.isEmpty && !(List.isPrefixOf ['/'] rest) then .ok ""
      else if scheme.isEmpty && !(List.isPrefixOf ['/'] rest) &&
          (rest.takeWhile (· != '/')).contains ':' then
        .error "first path segment in URL cannot contain colon"
      else if (!scheme.isEmpty || !(List.isPrefixOf ['/', '/', '/'] rest)) &&
          List.isPrefixOf ['/', '/'] rest then
        let afterSlashes := rest.drop 2
        let path := afterSlashes.dropWhile (· != '/')
        match unescapePath path with
        | none => .error "invalid URL escape"
        | some p => .ok ⟨p⟩
      else
        match unescapePath rest with
        | none => .error "invalid URL escape"
        | some p => .ok ⟨p⟩

/-! ## Debian repository parser -/

/-- Translation of `parseDebianPackageRepositoryLine`: a repository line needs
at least three space-separated tokens; token 1 is parsed as a URL whose first
path segment is the repository name; token 2 of shape `dist/branch` yields the
component, and for first-party packages a `main` component is rewritten to
`release`. -/
def parseDebianPackageRepositoryLine (repositoryLine : String)
    (isPerconaPackage : Bool) : Except PkgError PackageRepository :=
  match goSplitOnChar ' ' repositoryLine with
  | _ :: repoAddr :: repoDist :: _ =>
    match goURLParsePath repoAddr with
    | .error e => .error (.urlParse e)
    | .ok path =>
      let repoName := (goSplitOnChar '/' (goTrimChars ['/'] path)).headD ""
      let repoComponent :=
        match goSplitOnChar '/' repoDist with
        | [_, b] => b
        | _ => ""
      let repoComponent :=
        if isPerconaPackage ∧ repoComponent = "main" then "release" else repoComponent
      .ok { Name := repoName, Component := repoComponent }
  | _ => .error .unexpectedRepoLine

/-- The inner scanner loop of `parseDebianRepositoryOutput`: after the
priority has been extracted from the `***` line, every following line is
trimmed and skipped while empty or not starting with the priority string; the
first line that does start with it is handed to
`parseDebianPackageRepositoryLine`, and exhaustion of the output yields
`errPackageRepositoryNotFound`. -/
def findDebianRepoLine (isPerconaPackage : Bool) (priority : String) :
    List String → Except PkgError PackageRepository
  | [] => .error .packageRepositoryNotFound
  | l :: ls =>
    if (goTrimChars rhelTrimSet l).toList.isEmpty
        || !goStartsWith (goTrimChars rhelTrimSet l) priority then
      findDebianRepoLine isPerconaPackage priority ls
    else parseDebianPackageRepositoryLine (goTrimChars rhelTrimSet l) isPerconaPackage

/-- The outer scanner loop of `parseDebianRepositoryOutput`: lines mentioning
`Unable to locate package` yield `errPackageRepositoryNotFound`; lines that
are empty or lack the `***` marker are skipped; the `***` line must split
into exactly three space-separated tokens (else
`errUnexpectedConfiguredRepoLine`), the third being the priority passed to
`findDebianRepoLine`. -/
def scanDebianRepoOutput (isPerconaPackage : Bool) :
    List String → Except PkgError PackageRepository
  | [] => .error .packageRepositoryNotFound
  | l :: ls =>
    if goContains (goTrimChars rhelTrimSet l) "Unable to locate package" then
      .error .packageRepositoryNotFound
    else if (goTrimChars rhelTrimSet l).toList.isEmpty
        || !goStartsWith (goTrimChars rhelTrimSet l) "***" then
      scanDebianRepoOutput isPerconaPackage ls
    else
      match goSplitOnChar ' ' (goTrimChars rhelTrimSet l) with
      | [_, _, priority] => findDebianRepoLine isPerconaPackage priority ls
      | _ => .error .unexpectedConfiguredRepoLine

/-- Translation of `parseDebianRepositoryOutput`: a non-nil invocation error
is returned as-is, otherwise the line scan above runs on the output. -/
def parseDebianRepositoryOutput (repoOutput : String) (repoErr : Option String)
    (isPerconaPackage : Bool) : Except PkgError PackageRepository :=
  match repoErr with
  | some msg => .error (.invocation msg)
  | none => scanDebianRepoOutput isPerconaPackage (goLines repoOutput)

/-! ## Supporting lemmas about the string primitives -/

theorem toList_append (s t : String) : (s ++ t).toList = s.toList ++ t.toList := by
  cases s
  cases t
  rfl

theorem mk_toList (s : String) : (⟨s.toList⟩ : String) = s := rfl

theorem length_toList (s : String) : s.length = s.toList.length := rfl

theorem ne_empty_of_length_ne_zero {s : String} (h : ¬ s.length = 0) : s ≠ "" := by
  intro he
  exact h (by rw [he]; rfl)

theorem dropWhile_bne_append (c : Char) :
    ∀ b : List Char, c ∉ b → ∀ t : List Char,
      (b ++ c :: t).dropWhile (· != c) = c :: t := by
  intro b
  induction b with
  | nil =>
    intro _ t
    simp [List.dropWhile_cons]
  | cons x xs ih =>
    intro h t
    simp only [List.mem_cons, not_or] at h
    have hx : (x != c) = true := bne_iff_ne.mpr fun he => h.1 he.symm
    simp [List.dropWhile_cons, hx, ih h.2 t]

theorem takeWhile_bne_append (c : Char) :
    ∀ b : List Char, c ∉ b → ∀ t : List Char,
      (b ++ c :: t).takeWhile (· != c) = b := by
  intro b
  induction b with
  | nil =>
    intro _ t
    simp [List.takeWhile_cons]
  | cons x xs ih =>
    intro h t
    simp only [List.mem_cons, not_or] at h
    have hx : (x != c) = true := bne_iff_ne.mpr fun he => h.1 he.symm
    simp [List.takeWhile_cons, hx, ih h.2 t]

theorem contains_append_cons (c : Char) (a b : List Char) :
    (a ++ c :: b).contains c = true := by
  simp [List.contains, List.elem_iff]

theorem cutAfterLastL_append (c : Char) (a b : List Char) (hb : c ∉ b) :
    cutAfterLastL c (a ++ c :: b) = a := by
  unfold cutAfterLastL
  rw [if_pos (contains_append_cons c a b)]
  rw [List.reverse_append, List.reverse_cons, List.append_assoc, List.singleton_append]
  rw [dropWhile_bne_append c b.reverse (by simpa using hb) a.reverse]
  simp

theorem afterLastL_append (c : Char) (a b : List Char) (hb : c ∉ b) :
    afterLastL c (a ++ c :: b) = b := by
  unfold afterLastL
  rw [List.reverse_append, List.reverse_cons, List.append_assoc, List.singleton_append]
  rw [takeWhile_bne_append c b.reverse (by simpa using hb) a.reverse]
  simp

theorem cutAfterLast_append (c : Char) (s m t : String) (hm : m.toList = [c])
    (ht : c ∉ t.toList) : cutAfterLast c (s ++ m ++ t) = s := by
  unfold cutAfterLast
  rw [toList_append, toList_append, hm, List.append_assoc, List.singleton_append]
  rw [cutAfterLastL_append c _ _ ht]
  rfl

theorem afterLast_append (c : Char) (s m t : String) (hm : m.toList = [c])
    (ht : c ∉ t.toList) : afterLast c (s ++ m ++ t) = t := by
  unfold afterLast
  rw [toList_append, toList_append, hm, List.append_assoc, List.singleton_append]
  rw [afterLastL_append c _ _ ht]
  rfl

theorem cutAtFirstInfixL_isPrefix (pat : List Char) :
    ∀ l : List Char, cutAtFirstInfixL pat l <+: l := by
  intro l
  induction l with
  | nil => exact List.nil_prefix
  | cons x rest ih =>
    unfold cutAtFirstInfixL
    by_cases h : pat.isPrefixOf (x :: rest) = true
    · rw [if_pos h]
      exact List.nil_prefix
    · rw [if_neg h]
      exact List.cons_prefix_cons.mpr ⟨rfl, ih⟩

theorem length_eq_zero_iff_str (s : String) : s.length = 0 ↔ s = "" := by
  constructor
  · intro h
    cases s with
    | mk data =>
      cases data with
      | nil => rfl
      | cons a t => exact absurd h (by simp [String.length])
  · intro h
    rw [h]
    rfl

theorem parseDebianLine_some_version_ne_empty (b : Bool) (raw : String) (pkg : Package)
    (h : parseDebianLine b raw = some pkg) : pkg.Version ≠ "" := by
  unfold parseDebianLine at h
  split at h
  · exact Option.noConfusion h
  · split at h
    · split at h
      · exact Option.noConfusion h
      · split at h
        · exact Option.noConfusion h
        · split at h
          · exact Option.noConfusion h
          · rename_i hlen
            cases Option.some.inj h
            exact ne_empty_of_length_ne_zero hlen
    · exact Option.noConfusion h

/-! ## Claims -/

/-- C1 counterexample: with a nil invocation error, `parseRhelPackageOutput`
applied to the output line `a|||b` returns a package record whose version is
the empty string — the record is not dropped. -/
theorem C1_counterexample :
    parseRhelPackageOutput "a|||b" none true =
      .ok [{ Name := "a", Version := "", Repository := { Name := "", Component := "" } }] ∧
    ∃ l, parseRhelPackageOutput "a|||b" none true = .ok l ∧
      ∃ pkg ∈ l, pkg.Version = "" := by
  refine ⟨rfl, ⟨_, rfl, ⟨_, List.mem_singleton.mpr rfl, rfl⟩⟩⟩

/-- C1 amended: every package record returned by `parseDebianPackageOutput`
under a nil invocation error has a non-empty version string — records whose
derived version is empty are dropped. The RHEL parser performs no such
filtering (see the counterexample). -/
theorem C1_amended_debian_version_nonempty :
    ∀ (out : String) (b : Bool) (l : List Package) (pkg : Package),
      parseDebianPackageOutput out none b = .ok l → pkg ∈ l → pkg.Version ≠ "" := by
  intro out b l pkg hok hmem
  have hl : l = (goLines out).filterMap (parseDebianLine b) := by
    simp only [parseDebianPackageOutput] at hok
    split at hok
    · exact Except.noConfusion hok
    · exact (Except.ok.inj hok).symm
  subst hl
  obtain ⟨raw, _, hsome⟩ := List.mem_filterMap.mp hmem
  exact parseDebianLine_some_version_ne_empty b raw pkg hsome

/-- Witness for the amended C1 at a concrete dpkg-query output. -/
theorem C1_amended_witness :
    ({ Name := "etcd", Version := "3.3.25", Repository := {} } : Package).Version ≠ "" :=
  C1_amended_debian_version_nonempty "ii |etcd|3.3.25+dfsg-7ubuntu0.22.04.1" false
    [{ Name := "etcd", Version := "3.3.25", Repository := {} }]
    { Name := "etcd", Version := "3.3.25", Repository := {} }
    (by rfl) (List.mem_singleton.mpr rfl)

/-- C2: the Debian and RHEL version normalizers produce byte-identical
canonical output on the equivalent first-party raw data
`8.0.36-28-1.jammy` versus `version=8.0.36, release=28.1.el9`, both yielding
`8.0.36-28-1`. -/
theorem C2_cross_ecosystem_equivalence :
    parseDebianPackageVersion "8.0.36-28-1.jammy" true = "8.0.36-28-1" ∧
    parseRhelPackageVersion "8.0.36" "28.1.el9" true = "8.0.36-28-1" ∧
    parseDebianPackageVersion "8.0.36-28-1.jammy" true =
      parseRhelPackageVersion "8.0.36" "28.1.el9" true :=
  ⟨rfl, rfl, rfl⟩

/-- C3: with a nil invocation error, when zero package records survive the
line filtering, both parsers return the package-not-found condition rather
than a successful empty list. -/
theorem C3_zero_survivors_not_found :
    ∀ (out : String) (b : Bool),
      ((goLines out).filterMap (parseDebianLine b) = [] →
        parseDebianPackageOutput out none b = .error .packageNotFound) ∧
      ((goLines out).filterMap (parseRhelLine b) = [] →
        parseRhelPackageOutput out none b = .error .packageNotFound) := by
  intro out b
  constructor
  · intro h
    simp [parseDebianPackageOutput, h]
  · intro h
    simp [parseRhelPackageOutput, h]

/-- Witness for C3: output consisting only of skip-worthy lines yields the
package-not-found condition for both parsers. -/
theorem C3_witness :
    parseDebianPackageOutput "un |percona-xtrabackup-81|" none true =
      .error .packageNotFound ∧
    parseRhelPackageOutput "un |percona-xtrabackup-81|" none true =
      .error .packageNotFound :=
  ⟨(C3_zero_survivors_not_found "un |percona-xtrabackup-81|" true).1 (by rfl),
   (C3_zero_survivors_not_found "un |percona-xtrabackup-81|" true).2 (by rfl)⟩

/-- C4: a non-nil invocation error makes `parseRhelPackageOutput` return that
error as-is — never the package-not-found condition — regardless of the
command output. -/
theorem C4_rhel_error_passthrough :
    ∀ (out msg : String) (b : Bool),
      parseRhelPackageOutput out (some msg) b = .error (.invocation msg) ∧
      parseRhelPackageOutput out (some msg) b ≠ .error .packageNotFound := by
  intro out msg b
  exact ⟨rfl, by simp [parseRhelPackageOutput]⟩

/-- C5 counterexample: the substring test is made against the invocation
error's text, not the combined command output. Here the combined output does
contain `no packages found matching`, yet the error text `exit status 1` does
not, and the parser propagates the invocation error instead of returning the
package-not-found condition the claim predicts. -/
theorem C5_counterexample :
    goContains "no packages found matching percona2-*"
      "no packages found matching" = true ∧
    parseDebianPackageOutput "no packages found matching percona2-*"
      (some "exit status 1") true = .error (.invocation "exit status 1") ∧
    (Except.error (PkgError.invocation "exit status 1") :
      Except PkgError (List Package)) ≠ .error .packageNotFound :=
  ⟨rfl, rfl, by simp⟩

/-- C5 amended: under a dpkg-query invocation error, it is the error's text
that is tested — an error text containing the literal
`no packages found matching` yields the package-not-found condition and any
other error text is propagated as-is, unwrapped — while the combined command
output is not consulted at all; the two concrete conjuncts instantiate both
branches. -/
theorem C5_amended_error_text_discrimination :
    (∀ (out msg : String) (b : Bool),
      parseDebianPackageOutput out (some msg) b =
        if goContains msg "no packages found matching" then .error .packageNotFound
        else .error (.invocation msg)) ∧
    (∀ (out out' msg : String) (b : Bool),
      parseDebianPackageOutput out (some msg) b =
        parseDebianPackageOutput out' (some msg) b) ∧
    parseDebianPackageOutput ""
      (some "dpkg-query: no packages found matching percona-*") true =
      .error .packageNotFound ∧
    parseDebianPackageOutput "" (some "dpkg-query: failed to open database") true =
      .error (.invocation "dpkg-query: failed to open database") :=
  ⟨fun _ _ _ => rfl, fun _ _ _ _ => rfl, rfl, rfl⟩

/-- C8: resolution rules of `parseRhelPackageRegistry`: empty input yields the
empty repository; third-party input becomes the name verbatim; first-party
input of shape `name-component-arch` (component and arch dash-free) is split
into name and component; a remainder without a further dash leaves both
fields empty; and `ps-80-release-x86_64` resolves to `ps-80`/`release`. -/
theorem C8_rhel_registry_splitting :
    (∀ b : Bool, parseRhelPackageRegistry "" b = { Name := "", Component := "" }) ∧
    (∀ s : String, s ≠ "" →
      parseRhelPackageRegistry s false = { Name := s, Component := "" }) ∧
    (∀ n c arch : String, '-' ∉ c.toList → '-' ∉ arch.toList →
      parseRhelPackageRegistry (n ++ "-" ++ c ++ "-" ++ arch) true =
        { Name := n, Component := c }) ∧
    (∀ s : String, s ≠ "" → '-' ∉ (cutAfterLast '-' s).toList →
      parseRhelPackageRegistry s true = { Name := "", Component := "" }) ∧
    parseRhelPackageRegistry "ps-80-release-x86_64" true =
      { Name := "ps-80", Component := "release" } := by
  refine ⟨fun b => rfl, ?_, ?_, ?_, rfl⟩
  · intro s hs
    have h0 : ¬ s.length = 0 := fun hh => hs ((length_eq_zero_iff_str s).mp hh)
    simp [parseRhelPackageRegistry, h0]
  · intro n c arch hc harch
    have hfull : cutAfterLast '-' (n ++ "-" ++ c ++ "-" ++ arch) = n ++ "-" ++ c :=
      cutAfterLast_append '-' (n ++ "-" ++ c) "-" arch rfl harch
    have hname : cutAfterLast '-' (n ++ "-" ++ c) = n :=
      cutAfterLast_append '-' n "-" c rfl hc
    have hcomp : afterLast '-' (n ++ "-" ++ c) = c :=
      afterLast_append '-' n "-" c rfl hc
    have hinner : (n ++ "-" ++ c).toList = n.toList ++ '-' :: c.toList := by
      rw [toList_append, toList_append]
      rw [show ("-" : String).toList = ['-'] from rfl, List.append_assoc,
        List.singleton_append]
    have hcontains : (cutAfterLast '-' (n ++ "-" ++ c ++ "-" ++ arch)).toList.contains '-'
        = true := by
      rw [hfull, hinner]
      exact contains_append_cons '-' n.toList c.toList
    have hlen : ¬ (n ++ "-" ++ c ++ "-" ++ arch).length = 0 := by
      rw [length_toList, toList_append, toList_append,
        show ("-" : String).toList = ['-'] from rfl]
      simp only [List.length_append, List.length_cons, List.length_nil]
      omega
    unfold parseRhelPackageRegistry
    rw [if_neg hlen]
    simp only [Bool.not_true]
    rw [if_neg (by simp), if_pos hcontains, hfull, hname, hcomp]
  · intro s hs hnd
    have h0 : ¬ s.length = 0 := fun hh => hs ((length_eq_zero_iff_str s).mp hh)
    have hcontains : ¬ (cutAfterLast '-' s).toList.contains '-' = true := by
      simp only [List.contains, List.elem_iff]
      exact hnd
    unfold parseRhelPackageRegistry
    rw [if_neg h0]
    simp only [Bool.not_true]
    rw [if_neg (by simp), if_neg hcontains]

/-- Witness for C8 at concrete repository strings. -/
theorem C8_witness :
    parseRhelPackageRegistry "tools-release-x86_64" false =
      { Name := "tools-release-x86_64", Component := "" } ∧
    parseRhelPackageRegistry ("ps-80" ++ "-" ++ "release" ++ "-" ++ "x86_64") true =
      { Name := "ps-80", Component := "release" } ∧
    parseRhelPackageRegistry "noarch" true = { Name := "", Component := "" } :=
  ⟨C8_rhel_registry_splitting.2.1 "tools-release-x86_64" (by decide),
   C8_rhel_registry_splitting.2.2.1 "ps-80" "release" "x86_64" (by decide) (by decide),
   C8_rhel_registry_splitting.2.2.2.1 "noarch" (by decide) (by decide)⟩

/-- C9: for every third-party version string accepted by the Debian version
parser, the normalizer returns the upstream version cut at the first `+dfsg`
marker — a prefix of the upstream version, so the revision is never
appended — and `3.3.25+dfsg-7ubuntu0.22.04.1` normalizes to `3.3.25`. -/
theorem C9_third_party_dfsg :
    (∀ (s : String) (v : DebVersion), debNewVersion s = some v →
      parseDebianPackageVersion s false =
        (⟨cutAtFirstInfixL "+dfsg".toList v.upstreamVersion.toList⟩ : String) ∧
      (parseDebianPackageVersion s false).toList <+: v.upstreamVersion.toList) ∧
    parseDebianPackageVersion "3.3.25+dfsg-7ubuntu0.22.04.1" false = "3.3.25" := by
  constructor
  · intro s v h
    have he : parseDebianPackageVersion s false =
        (⟨cutAtFirstInfixL "+dfsg".toList v.upstreamVersion.toList⟩ : String) := by
      show thirdPartyDebianVersionCore s = _
      unfold thirdPartyDebianVersionCore
      rw [h]
    refine ⟨he, ?_⟩
    rw [he]
    exact cutAtFirstInfixL_isPrefix _ _
  · rfl

/-- Witness for C9 at the dfsg-marked etcd version string. -/
theorem C9_witness :
    parseDebianPackageVersion "3.3.25+dfsg-7ubuntu0.22.04.1" false =
      (⟨cutAtFirstInfixL "+dfsg".toList ("3.3.25+dfsg" : String).toList⟩ : String) :=
  (C9_third_party_dfsg.1 "3.3.25+dfsg-7ubuntu0.22.04.1"
    { epoch := 0, upstreamVersion := "3.3.25+dfsg", debianRevision := "7ubuntu0.22.04.1" }
    (by rfl)).1

/-- C10: the first-party Debian normalizer discards the text after the last
dot before any version parsing — the result does not depend on that text —
and a bare `8.1.0` consequently normalizes to `8.1`, never `8.1.0`. -/
theorem C10_percona_always_cuts_last_dot :
    (∀ s t u : String, '.' ∉ t.toList → '.' ∉ u.toList →
      parseDebianPackageVersion (s ++ "." ++ t) true =
        parseDebianPackageVersion (s ++ "." ++ u) true) ∧
    parseDebianPackageVersion "8.1.0" true = "8.1" ∧
    parseDebianPackageVersion "8.1.0" true ≠ "8.1.0" := by
  refine ⟨?_, rfl, by decide⟩
  intro s t u ht hu
  show perconaDebianVersionCore (cutAfterLast '.' (s ++ "." ++ t)) =
    perconaDebianVersionCore (cutAfterLast '.' (s ++ "." ++ u))
  rw [cutAfterLast_append '.' s "." t rfl ht, cutAfterLast_append '.' s "." u rfl hu]

/-- Witness for C10: the codename-free input and a codename-suffixed input
normalize identically. -/
theorem C10_witness :
    parseDebianPackageVersion ("8.1" ++ "." ++ "0") true =
      parseDebianPackageVersion ("8.1" ++ "." ++ "jammy") true :=
  C10_percona_always_cuts_last_dot.1 "8.1" "0" "jammy" (by decide) (by decide)

/-! ## Characterization of the repository-output scan (claims C6 and C7) -/

/-- A line the outer repository scan passes over: it does not mention
`Unable to locate package` and is empty or lacks the `***` marker. -/
def outerSkipLine (l : String) : Bool :=
  !goContains (goTrimChars rhelTrimSet l) "Unable to locate package" &&
    ((goTrimChars rhelTrimSet l).toList.isEmpty ||
      !goStartsWith (goTrimChars rhelTrimSet l) "***")

/-- A line the inner scan passes over: empty or not starting with the
priority string. -/
def innerSkipLine (p l : String) : Bool :=
  (goTrimChars rhelTrimSet l).toList.isEmpty ||
    !goStartsWith (goTrimChars rhelTrimSet l) p

/-- A well-formed `***` marker line whose three space-separated tokens end
with the priority `p`. -/
def starPriorityLine (star p : String) : Prop :=
  goContains (goTrimChars rhelTrimSet star) "Unable to locate package" = false ∧
  (goTrimChars rhelTrimSet star).toList.isEmpty = false ∧
  goStartsWith (goTrimChars rhelTrimSet star) "***" = true ∧
  ∃ t0 t1 : String, goSplitOnChar ' ' (goTrimChars rhelTrimSet star) = [t0, t1, p]

/-- A `***` marker line that does not split into exactly three
space-separated tokens. -/
def starMalformedLine (star : String) : Prop :=
  goContains (goTrimChars rhelTrimSet star) "Unable to locate package" = false ∧
  (goTrimChars rhelTrimSet star).toList.isEmpty = false ∧
  goStartsWith (goTrimChars rhelTrimSet star) "***" = true ∧
  (goSplitOnChar ' ' (goTrimChars rhelTrimSet star)).length ≠ 3

/-- A line the inner scan accepts: non-empty and starting with the priority. -/
def repoLineMatches (p target : String) : Prop :=
  (goTrimChars rhelTrimSet target).toList.isEmpty = false ∧
  goStartsWith (goTrimChars rhelTrimSet target) p = true

theorem scanDebianRepoOutput_skip (b : Bool) (l : String) (ls : List String)
    (h : outerSkipLine l = true) :
    scanDebianRepoOutput b (l :: ls) = scanDebianRepoOutput b ls := by
  unfold outerSkipLine at h
  rw [Bool.and_eq_true] at h
  obtain ⟨h1, h2⟩ := h
  rw [Bool.not_eq_true'] at h1
  conv_lhs => unfold scanDebianRepoOutput
  rw [if_neg (by simp [h1]), if_pos h2]

theorem findDebianRepoLine_skip (b : Bool) (p l : String) (ls : List String)
    (h : innerSkipLine p l = true) :
    findDebianRepoLine b p (l :: ls) = findDebianRepoLine b p ls := by
  unfold innerSkipLine at h
  conv_lhs => unfold findDebianRepoLine
  rw [if_pos h]

theorem findDebianRepoLine_hit (b : Bool) (p target : String) (rest : List String)
    (h : repoLineMatches p target) :
    findDebianRepoLine b p (target :: rest) =
      parseDebianPackageRepositoryLine (goTrimChars rhelTrimSet target) b := by
  obtain ⟨h1, h2⟩ := h
  conv_lhs => unfold findDebianRepoLine
  rw [if_neg (by simp only [h1, h2]; decide)]

theorem scanDebianRepoOutput_star (b : Bool) (star p : String) (ls : List String)
    (h : starPriorityLine star p) :
    scanDebianRepoOutput b (star :: ls) = findDebianRepoLine b p ls := by
  obtain ⟨h1, h2, h3, t0, t1, h4⟩ := h
  conv_lhs => unfold scanDebianRepoOutput
  rw [if_neg (by simp [h1]), if_neg (by simp only [h2, h3]; decide), h4]

theorem scanDebianRepoOutput_star_malformed (b : Bool) (star : String)
    (ls : List String) (h : starMalformedLine star) :
    scanDebianRepoOutput b (star :: ls) = .error .unexpectedConfiguredRepoLine := by
  obtain ⟨h1, h2, h3, h4⟩ := h
  conv_lhs => unfold scanDebianRepoOutput
  rw [if_neg (by simp [h1]), if_neg (by simp only [h2, h3]; decide)]
  cases hsp : goSplitOnChar ' ' (goTrimChars rhelTrimSet star) with
  | nil => rfl
  | cons a tl1 =>
    cases tl1 with
    | nil => rfl
    | cons c tl2 =>
      cases tl2 with
      | nil => rfl
      | cons d tl3 =>
        cases tl3 with
        | nil =>
          rw [hsp] at h4
          exact absurd rfl h4
        | cons e tl4 => rfl

theorem scanDebianRepoOutput_through (b : Bool) :
    ∀ pre tail : List String,
      (∀ l ∈ pre, outerSkipLine l = true) →
      scanDebianRepoOutput b (pre ++ tail) = scanDebianRepoOutput b tail := by
  intro pre
  induction pre with
  | nil =>
    intro tail _
    rfl
  | cons q qs ih =>
    intro tail h
    rw [List.cons_append,
      scanDebianRepoOutput_skip b q (qs ++ tail) (h q (List.mem_cons_self q qs))]
    exact ih tail fun l hl => h l (List.mem_cons_of_mem q hl)

theorem findDebianRepoLine_through (b : Bool) (p : String) :
    ∀ (mid : List String) (target : String) (rest : List String),
      (∀ l ∈ mid, innerSkipLine p l = true) →
      repoLineMatches p target →
      findDebianRepoLine b p (mid ++ target :: rest) =
        parseDebianPackageRepositoryLine (goTrimChars rhelTrimSet target) b := by
  intro mid
  induction mid with
  | nil =>
    intro target rest _ ht
    exact findDebianRepoLine_hit b p target rest ht
  | cons m ms ih =>
    intro target rest h ht
    rw [List.cons_append,
      findDebianRepoLine_skip b p m (ms ++ target :: rest) (h m (List.mem_cons_self m ms))]
    exact ih target rest (fun l hl => h l (List.mem_cons_of_mem m hl)) ht

/-- Modelled from the spec (claim C6's wording of the subsequent-line scan):
after the `***` marker, scan every subsequent line for the first one
beginning with the priority, skipping lines pointing at
`/var/lib/dpkg/status`, and resolve the repository from that line. -/
def findRepoLineSkipStatusSpec (isPerconaPackage : Bool) (priority : String) :
    List String → Except PkgError PackageRepository
  | [] => .error .packageRepositoryNotFound
  | l :: ls =>
    if (goTrimChars rhelTrimSet l).toList.isEmpty
        || !goStartsWith (goTrimChars rhelTrimSet l) priority
        || goContains (goTrimChars rhelTrimSet l) "/var/lib/dpkg/status" then
      findRepoLineSkipStatusSpec isPerconaPackage priority ls
    else parseDebianPackageRepositoryLine (goTrimChars rhelTrimSet l) isPerconaPackage

/-- Modelled from the spec: the outer scan combined with claim C6's
status-skipping inner scan in place of the code's inner scan. -/
def scanDebianRepoOutputSpecC6 (isPerconaPackage : Bool) :
    List String → Except PkgError PackageRepository
  | [] => .error .packageRepositoryNotFound
  | l :: ls =>
    if goContains (goTrimChars rhelTrimSet l) "Unable to locate package" then
      .error .packageRepositoryNotFound
    else if (goTrimChars rhelTrimSet l).toList.isEmpty
        || !goStartsWith (goTrimChars rhelTrimSet l) "***" then
      scanDebianRepoOutputSpecC6 isPerconaPackage ls
    else
      match goSplitOnChar ' ' (goTrimChars rhelTrimSet l) with
      | [_, _, priority] => findRepoLineSkipStatusSpec isPerconaPackage priority ls
      | _ => .error .unexpectedConfiguredRepoLine

/-- The apt-cache policy output refuting claim C6: the `***` line's priority
is `100` and the first subsequent line starting with `100` is the
`/var/lib/dpkg/status` line. -/
def c6CexOutput : String :=
  "percona-backup-mongodb:\nVersion table:\n*** 2.4.1-1.jammy 100\n100 /var/lib/dpkg/status\n100 http://repo.percona.com/pbm/apt jammy/main amd64 Packages\n"

/-- C6 counterexample: the code hands the first priority-prefixed line to
the repository-line parser even when it points at `/var/lib/dpkg/status`,
failing with the unexpected-repository-line error, whereas the scan the
claim describes skips that line and resolves the repository from the next
remote-URL line. -/
theorem C6_counterexample :
    parseDebianRepositoryOutput c6CexOutput none true = .error .unexpectedRepoLine ∧
    scanDebianRepoOutputSpecC6 true (goLines c6CexOutput) =
      .ok { Name := "pbm", Component := "release" } ∧
    (Except.error PkgError.unexpectedRepoLine :
      Except PkgError PackageRepository) ≠ .ok { Name := "pbm", Component := "release" } :=
  ⟨rfl, rfl, by simp⟩

/-- C6 amended: after finding the `***` marker line and extracting its
priority token, the parser resolves the repository from the first subsequent
non-empty line whose text begins with the priority string, whatever that
line contains — `/var/lib/dpkg/status` lines are not specially skipped, they
are only passed over when the priority prefix does not match. -/
theorem C6_amended_first_priority_line_parsed :
    ∀ (out : String) (b : Bool) (p : String) (pre mid rest : List String)
      (star target : String),
      goLines out = pre ++ star :: (mid ++ target :: rest) →
      (∀ l ∈ pre, outerSkipLine l = true) →
      starPriorityLine star p →
      (∀ l ∈ mid, innerSkipLine p l = true) →
      repoLineMatches p target →
      parseDebianRepositoryOutput out none b =
        parseDebianPackageRepositoryLine (goTrimChars rhelTrimSet target) b := by
  intro out b p pre mid rest star target hlines hpre hstar hmid htarget
  show scanDebianRepoOutput b (goLines out) = _
  rw [hlines, scanDebianRepoOutput_through b pre _ hpre,
    scanDebianRepoOutput_star b star p _ hstar,
    findDebianRepoLine_through b p mid target rest hmid htarget]

/-- The well-formed apt-cache policy output used to witness the amended C6. -/
def c6WitnessOutput : String :=
  "percona-server-server:\nInstalled: 8.0.36-28-1.jammy\nCandidate: 8.0.36-28-1.jammy\nVersion table:\n*** 8.0.36-28-1.jammy 500\n        500 http://repo.percona.com/ps-80/apt jammy/main amd64 Packages\n        100 /var/lib/dpkg/status\n"

/-- Witness for the amended C6 at a concrete apt-cache policy output. -/
theorem C6_amended_witness :
    parseDebianRepositoryOutput c6WitnessOutput none true =
      parseDebianPackageRepositoryLine
        (goTrimChars rhelTrimSet
          "        500 http://repo.percona.com/ps-80/apt jammy/main amd64 Packages")
        true :=
  C6_amended_first_priority_line_parsed c6WitnessOutput true "500"
    ["percona-server-server:", "Installed: 8.0.36-28-1.jammy",
      "Candidate: 8.0.36-28-1.jammy", "Version table:"]
    [] ["        100 /var/lib/dpkg/status"]
    "*** 8.0.36-28-1.jammy 500"
    "        500 http://repo.percona.com/ps-80/apt jammy/main amd64 Packages"
    (by rfl) (by decide)
    ⟨by rfl, by rfl, by rfl, "***", "8.0.36-28-1.jammy", by rfl⟩
    (by decide) ⟨by rfl, by rfl⟩

/-- C7: when the `***` marker line does not split into exactly three
space-separated tokens, `parseDebianRepositoryOutput` returns the
unexpected-configured-repository-line error rather than guessing. -/
theorem C7_malformed_star_line :
    ∀ (out : String) (b : Bool) (pre rest : List String) (star : String),
      goLines out = pre ++ star :: rest →
      (∀ l ∈ pre, outerSkipLine l = true) →
      starMalformedLine star →
      parseDebianRepositoryOutput out none b = .error .unexpectedConfiguredRepoLine := by
  intro out b pre rest star hlines hpre hstar
  show scanDebianRepoOutput b (goLines out) = _
  rw [hlines, scanDebianRepoOutput_through b pre _ hpre,
    scanDebianRepoOutput_star_malformed b star rest hstar]

/-- The malformed apt-cache policy output used to witness C7 (its `***` line
has only two tokens). -/
def c7WitnessOutput : String :=
  "percona-backup-mongodb:\nInstalled: 2.4.1-1.jammy\nCandidate: 2.4.1-1.jammy\nVersion table:\n*** 2.4.1-1.jammy\n        100 /var/lib/dpkg/status\n"

/-- Witness for C7 at a concrete malformed apt-cache policy output. -/
theorem C7_witness :
    parseDebianRepositoryOutput c7WitnessOutput none true =
      .error .unexpectedConfiguredRepoLine :=
  C7_malformed_star_line c7WitnessOutput true
    ["percona-backup-mongodb:", "Installed: 2.4.1-1.jammy",
      "Candidate: 2.4.1-1.jammy", "Version table:"]
    ["        100 /var/lib/dpkg/status"]
    "*** 2.4.1-1.jammy"
    (by rfl) (by decide) ⟨by rfl, by rfl, by rfl, by decide⟩

end TelemetryAgent
